import Mathlib

namespace Wavey

/-- Wire-level command vocabulary of the arm controller (robot_ops.py):
`moveTo` is the T=104 end-effector move, `gripperSet` the T=106 gripper
command, `jointSet` the T=121 single-joint move. -/
inductive Cmd where
  | moveTo (x y z t spd : ℚ)
  | gripperSet (cmd spd acc : ℚ)
  | jointSet (joint : ℤ) (angle spd acc : ℚ)
  deriving DecidableEq, Repr

abbrev Point := ℚ × ℚ

abbrev Stroke := List Point

/-- Scale/origin configuration for the canvas→robot transform
(config.py SCALE_X/SCALE_Y/DRAW_ORIGIN_X/DRAW_ORIGIN_Y as parameters). -/
structure TransformConfig where
  scaleX : ℚ
  scaleY : ℚ
  originX : ℚ
  originY : ℚ
  deriving DecidableEq, Repr

/-- canvas_utils.canvas_to_robot_coordinates. -/
def canvas_to_robot_coordinates (cfg : TransformConfig) (p : Point) : Point :=
  (cfg.originX + p.1 * cfg.scaleX, cfg.originY + p.2 * cfg.scaleY)

/-- canvas_utils.robot_to_canvas_coordinates. -/
def robot_to_canvas_coordinates (cfg : TransformConfig) (p : Point) : Point :=
  ((p.1 - cfg.originX) / cfg.scaleX, (p.2 - cfg.originY) / cfg.scaleY)

/-- canvas_utils.scale_and_offset_points: per-point scale and offset loop. -/
def scale_and_offset_points (cfg : TransformConfig) (points : Stroke) : Stroke :=
  points.map fun p => (cfg.originX + p.1 * cfg.scaleX, cfg.originY + p.2 * cfg.scaleY)

/-- config.Z_UP (mm). -/
def Z_UP : ℚ := 80

/-- config.Z_DOWN (mm). -/
def Z_DOWN : ℚ := 50

/-- config.Z_PICKUP (mm). -/
def Z_PICKUP : ℚ := 40

/-- config.T_ANGLE (radians, 1.57). -/
def T_ANGLE : ℚ := 157 / 100

/-- config.DEFAULT_MOVE_SPEED (0.5). -/
def DEFAULT_MOVE_SPEED : ℚ := 1 / 2

/-- config.GRIPPER_CLOSE_ANGLE (radians, 1.2). -/
def GRIPPER_CLOSE_ANGLE : ℚ := 6 / 5

/-- config.GRIPPER_SPEED (0.5). -/
def GRIPPER_SPEED : ℚ := 1 / 2

/-- config.GRIPPER_ACCELERATION (10.0). -/
def GRIPPER_ACCELERATION : ℚ := 10

/-- The per-stroke body of canvas_utils.send_drawing_instructions: move to the
first point at z_up, again at z_down, trace the tail at z_down, lift at the
last point (stroke[-1], which for first :: rest is rest.getLastD first);
an empty stroke is skipped. -/
def send_drawing_instructions_stroke (z_up z_down t_angle speed : ℚ) :
    Stroke → List Cmd
  | [] => []
  | first :: rest =>
      Cmd.moveTo first.1 first.2 z_up t_angle speed ::
      Cmd.moveTo first.1 first.2 z_down t_angle speed ::
      (rest.map fun p => Cmd.moveTo p.1 p.2 z_down t_angle speed) ++
      [Cmd.moveTo (rest.getLastD first).1 (rest.getLastD first).2 z_up t_angle speed]

/-- canvas_utils.send_drawing_instructions over a stroke list, as the sequence
of commands handed to robot_arm.send_command in order. -/
def send_drawing_instructions (z_up z_down t_angle speed : ℚ)
    (strokes : List Stroke) : List Cmd :=
  strokes.flatMap (send_drawing_instructions_stroke z_up z_down t_angle speed)

/-- Planning one stroke: scale_and_offset_points composed with
send_drawing_instructions on the single transformed stroke (the composition
used by drawing_app.py). -/
def planStroke (cfg : TransformConfig) (z_up z_down t_angle speed : ℚ)
    (stroke : Stroke) : List Cmd :=
  send_drawing_instructions_stroke z_up z_down t_angle speed
    (scale_and_offset_points cfg stroke)

/-- Rectangle record parsed from the canvas (left, top, width, height). -/
structure Rectangle where
  left : ℚ
  top : ℚ
  width : ℚ
  height : ℚ
  deriving DecidableEq, Repr

/-- The per-rectangle body of canvas_utils.pick_up_at_rectangle_centers:
center = (left + width/2, top + height/2), transformed by origin + center *
scale, then the four commands command_up, command_down, close_command,
command_up in order. -/
def pick_up_at_rectangle_center (cfg : TransformConfig)
    (z_up z_pickup t_angle speed : ℚ) (rect : Rectangle) : List Cmd :=
  let center_x := rect.left + rect.width / 2
  let center_y := rect.top + rect.height / 2
  let robot_x := cfg.originX + center_x * cfg.scaleX
  let robot_y := cfg.originY + center_y * cfg.scaleY
  [Cmd.moveTo robot_x robot_y z_up t_angle speed,
   Cmd.moveTo robot_x robot_y z_pickup t_angle speed,
   Cmd.gripperSet GRIPPER_CLOSE_ANGLE GRIPPER_SPEED GRIPPER_ACCELERATION,
   Cmd.moveTo robot_x robot_y z_up t_angle speed]

/-- canvas_utils.pick_up_at_rectangle_centers over the rectangle list. -/
def pick_up_at_rectangle_centers (cfg : TransformConfig)
    (z_up z_pickup t_angle speed : ℚ) (rects : List Rectangle) : List Cmd :=
  rects.flatMap (pick_up_at_rectangle_center cfg z_up z_pickup t_angle speed)

/-- A cv2.VideoCapture handle as far as CameraManager.get_frame consults it:
only whether isOpened() is true. -/
structure Capture where
  isOpened : Bool
  deriving DecidableEq, Repr

/-- video_processing.CameraManager.get_frame: look the index up in self.caps;
if absent or not opened return None, else return the frame of the current
read when ret is true and None otherwise. readResult models the
(ret, frame_bgr) pair of this call as an Option. Frames are abstracted to ℕ. -/
def get_frame (caps : ℕ → Option Capture) (readResult : Option ℕ)
    (camera_index : ℕ) : Option ℕ :=
  match caps camera_index with
  | none => none
  | some cap => if cap.isOpened then readResult else none

/-- Side tag of a hand detection. -/
inductive Side where
  | left
  | right
  deriving DecidableEq, Repr

/-- One pose keypoint (x, y, confidence) as rationals. -/
structure Keypoint where
  x : ℚ
  y : ℚ
  conf : ℚ
  deriving DecidableEq, Repr

/-- One hand detection: integer pixel position, side tag, confidence, as
built by HandTracker.detect_hands. -/
structure Detection where
  px : ℤ
  py : ℤ
  side : Side
  confidence : ℚ
  deriving DecidableEq, Repr

/-- Python int() applied to a rational: truncation toward zero. -/
def pyInt (q : ℚ) : ℤ :=
  if 0 ≤ q then ⌊q⌋ else ⌈q⌉

/-- COCO index of the left wrist keypoint. -/
def LEFT_WRIST : ℕ := 9

/-- COCO index of the right wrist keypoint. -/
def RIGHT_WRIST : ℕ := 10

/-- The per-person body of HandTracker.detect_hands: skip persons with fewer
than 17 keypoints; append a left detection when the left wrist confidence is
strictly above the threshold, then a right detection under the same strict
test. -/
def detect_hands_person (score_thr : ℚ) (person_kpts : List Keypoint) :
    List Detection :=
  if person_kpts.length < 17 then []
  else
    let lw := person_kpts.getD LEFT_WRIST ⟨0, 0, 0⟩
    let rw := person_kpts.getD RIGHT_WRIST ⟨0, 0, 0⟩
    (if lw.conf > score_thr then
        [⟨pyInt lw.x, pyInt lw.y, Side.left, lw.conf⟩] else []) ++
    (if rw.conf > score_thr then
        [⟨pyInt rw.x, pyInt rw.y, Side.right, rw.conf⟩] else [])

/-- HandTracker.detect_hands over the keypoint sets of all detected persons. -/
def detect_hands (score_thr : ℚ) (people : List (List Keypoint)) :
    List Detection :=
  people.flatMap (detect_hands_person score_thr)

/-- Movement direction labels of HandTracker.track_hand_movement. -/
inductive Direction where
  | stationary
  | left
  | right
  | up
  | down
  deriving DecidableEq, Repr

/-- Direction classification of HandTracker.track_hand_movement: distance =
sqrt(dx^2 + dy^2) over integer pixel deltas, so distance > 10 is exactly
dx^2 + dy^2 > 100; then the strict axis comparison abs(dx) > abs(dy) picks
left/right by the sign of dx, and otherwise up/down by the sign of dy. -/
def classify_direction (dx dy : ℤ) : Direction :=
  if dx ^ 2 + dy ^ 2 > 100 then
    if |dx| > |dy| then (if dx > 0 then Direction.right else Direction.left)
    else (if dy > 0 then Direction.down else Direction.up)
  else Direction.stationary

/-- One movement record of track_hand_movement: side plus the integer pixel
deltas (dx, dy), from which direction and distance are derived. -/
structure Movement where
  side : Side
  dx : ℤ
  dy : ℤ
  deriving DecidableEq, Repr

/-- Direction of a movement record. -/
def movement_direction (m : Movement) : Direction :=
  classify_direction m.dx m.dy

/-- hand_tracking_app.control_robot_from_movement with the port available:
for each movement of side right whose distance exceeds 20 pixels (squared:
dx^2 + dy^2 > 400), emit the point_to_angle call mapped from its direction
(speed 10, acc 10); all other movements emit nothing. The if/elif chain
mapping a direction to its point_to_angle call is the helper below. -/
def joint_cmd_of_direction : Direction → List Cmd
  | Direction.up => [Cmd.jointSet 2 45 10 10]
  | Direction.down => [Cmd.jointSet 2 (-45) 10 10]
  | Direction.left => [Cmd.jointSet 1 45 10 10]
  | Direction.right => [Cmd.jointSet 1 (-45) 10 10]
  | Direction.stationary => []

/-- The loop of control_robot_from_movement: a command is emitted only for
side right with distance strictly above 20 pixels. -/
def control_robot_from_movement (movements : List Movement) : List Cmd :=
  movements.flatMap fun m =>
    if m.side = Side.right ∧ m.dx ^ 2 + m.dy ^ 2 > 400 then
      joint_cmd_of_direction (movement_direction m)
    else []

/-- config.CANVAS-independent camera constants hardcoded inside
center_robot_on_hands. -/
def CAMERA_WIDTH : ℚ := 640

/-- Camera height constant hardcoded inside center_robot_on_hands. -/
def CAMERA_HEIGHT : ℚ := 480

/-- config.ROBOT_WORKSPACE_WIDTH (mm). -/
def ROBOT_WORKSPACE_WIDTH : ℚ := 300

/-- config.ROBOT_WORKSPACE_HEIGHT (mm). -/
def ROBOT_WORKSPACE_HEIGHT : ℚ := 225

/-- config.DRAW_ORIGIN_X (mm). -/
def DRAW_ORIGIN_X : ℚ := 100

/-- config.DRAW_ORIGIN_Y (mm). -/
def DRAW_ORIGIN_Y : ℚ := 100

/-- Smoothing state of center_robot_on_hands: the session keys last_robot_x,
last_robot_y, last_base_angle. -/
structure SmoothState where
  x : ℚ
  y : ℚ
  angle : ℚ
  deriving DecidableEq, Repr

/-- One exponential smoothing step, the formula
last + (raw - last) * smoothing used for all three channels. -/
def smooth_step (prev raw alpha : ℚ) : ℚ :=
  prev + (raw - prev) * alpha

/-- Iterating the smoothing step against a constant raw target. -/
def smooth_iter (raw alpha x0 : ℚ) : ℕ → ℚ
  | 0 => x0
  | n + 1 => smooth_step (smooth_iter raw alpha x0 n) raw alpha

/-- Centroid x of the detected hand positions (sum of xs over count). -/
def centroid_x (positions : List (ℤ × ℤ)) : ℚ :=
  (positions.map fun p => (p.1 : ℚ)).sum / positions.length

/-- Centroid y of the detected hand positions. -/
def centroid_y (positions : List (ℤ × ℤ)) : ℚ :=
  (positions.map fun p => (p.2 : ℚ)).sum / positions.length

/-- Raw base angle of center_robot_on_hands: norm_offset_x * 45 where
norm_offset_x = (center_x - 320) / 320. -/
def base_angle_adjustment (center_x : ℚ) : ℚ :=
  (center_x - CAMERA_WIDTH / 2) / (CAMERA_WIDTH / 2) * 45

/-- Raw robot x target of center_robot_on_hands. -/
def raw_robot_x (center_x : ℚ) : ℚ :=
  DRAW_ORIGIN_X + center_x / CAMERA_WIDTH * ROBOT_WORKSPACE_WIDTH

/-- Raw robot y target of center_robot_on_hands. -/
def raw_robot_y (center_y : ℚ) : ℚ :=
  DRAW_ORIGIN_Y + center_y / CAMERA_HEIGHT * ROBOT_WORKSPACE_HEIGHT

/-- hand_tracking_app.center_robot_on_hands: with the port unavailable or no
positions it returns unchanged state and no commands; otherwise it computes
the centroid, the raw x/y targets and raw base angle, smooths each channel
against the previous state (seeding with the raw values when no previous
state exists), stores the smoothed triple, and emits point_to_angle(joint 1,
smoothed angle, speed alpha*20, acc 10) then pick_up(x, y, Z_UP, T_ANGLE,
speed alpha). -/
def center_robot_on_hands (port_available : Bool)
    (positions : List (ℤ × ℤ)) (st : Option SmoothState) (alpha : ℚ) :
    Option SmoothState × List Cmd :=
  if ¬ port_available ∨ positions = [] then (st, [])
  else
    let rx := raw_robot_x (centroid_x positions)
    let ry := raw_robot_y (centroid_y positions)
    let ra := base_angle_adjustment (centroid_x positions)
    let s : SmoothState :=
      match st with
      | none => ⟨rx, ry, ra⟩
      | some prev =>
          ⟨smooth_step prev.x rx alpha, smooth_step prev.y ry alpha,
           smooth_step prev.angle ra alpha⟩
    (some s,
     [Cmd.jointSet 1 s.angle (alpha * 20) 10,
      Cmd.moveTo s.x s.y Z_UP T_ANGLE alpha])

/-- One entry of a fabric.js path array, e.g. ["M", x, y]: the command letter
followed by its numeric arguments; the Python len(segment) is
1 + coords.length. -/
structure PathSegment where
  cmd : String
  coords : List ℚ
  deriving DecidableEq, Repr

/-- The segment filter of parse_canvas_strokes_and_rectangles: keep segments
of length at least 3 whose command is M or L, taking segment[1], segment[2]
as the point. -/
def segment_point (s : PathSegment) : Option Point :=
  if 2 ≤ s.coords.length ∧ (s.cmd = "M" ∨ s.cmd = "L") then
    some (s.coords.getD 0 0, s.coords.getD 1 0)
  else none

/-- One object of the st_canvas JSON: a freedraw path, a rect (fields may be
absent, defaulting to 0), or anything else. -/
inductive CanvasObject where
  | path (segments : List PathSegment)
  | rect (left top width height : Option ℚ)
  | other
  deriving DecidableEq, Repr

/-- The json_data argument of parse_canvas_strokes_and_rectangles: None (or
otherwise falsy), a dict lacking the objects key, or a dict with an object
list. -/
inductive CanvasInput where
  | null
  | noObjects
  | withObjects (objs : List CanvasObject)
  deriving DecidableEq, Repr

/-- Loop body of parse_canvas_strokes_and_rectangles over one object. -/
def parse_canvas_step (acc : List Stroke × List Rectangle)
    (obj : CanvasObject) : List Stroke × List Rectangle :=
  match obj with
  | CanvasObject.path segments =>
      let points := segments.filterMap segment_point
      if points.isEmpty then acc else (acc.1 ++ [points], acc.2)
  | CanvasObject.rect l t w h =>
      (acc.1, acc.2 ++ [⟨l.getD 0, t.getD 0, w.getD 0, h.getD 0⟩])
  | CanvasObject.other => acc

/-- canvas_utils.parse_canvas_strokes_and_rectangles. -/
def parse_canvas_strokes_and_rectangles (json_data : CanvasInput) :
    List Stroke × List Rectangle :=
  match json_data with
  | CanvasInput.null => ([], [])
  | CanvasInput.noObjects => ([], [])
  | CanvasInput.withObjects objs => objs.foldl parse_canvas_step ([], [])

/-- Mapping a list commutes with taking the last element with default. -/
theorem getLastD_map {α β : Type} (f : α → β) (l : List α) (d : α) :
    (l.map f).getLastD (f d) = f (l.getLastD d) := by
  induction l generalizing d with
  | nil => rfl
  | cons a l ih =>
      rw [List.map_cons, List.getLastD_cons, List.getLastD_cons]
      exact ih a

/-- scale_and_offset_points is the pointwise canvas→robot transform. -/
theorem scale_and_offset_points_eq_map (cfg : TransformConfig) (pts : Stroke) :
    scale_and_offset_points cfg pts = pts.map (canvas_to_robot_coordinates cfg) := by
  rfl

/-- C2: composing the canvas→robot transform with the robot→canvas transform
returns the original point exactly over exact arithmetic, whenever scaleX and
scaleY are nonzero. -/
theorem C2_roundtrip (cfg : TransformConfig) (p : Point)
    (hx : cfg.scaleX ≠ 0) (hy : cfg.scaleY ≠ 0) :
    robot_to_canvas_coordinates cfg (canvas_to_robot_coordinates cfg p) = p := by
  unfold robot_to_canvas_coordinates canvas_to_robot_coordinates
  field_simp

/-- Witness for C2 at cfg = (2, 3, 10, 20), p = (5, 7). -/
theorem C2_witness :
    (⟨2, 3, 10, 20⟩ : TransformConfig).scaleX ≠ 0 ∧
    (⟨2, 3, 10, 20⟩ : TransformConfig).scaleY ≠ 0 ∧
    robot_to_canvas_coordinates ⟨2, 3, 10, 20⟩
      (canvas_to_robot_coordinates ⟨2, 3, 10, 20⟩ (5, 7)) = (5, 7) :=
  ⟨by norm_num, by norm_num,
   C2_roundtrip ⟨2, 3, 10, 20⟩ (5, 7) (by norm_num) (by norm_num)⟩

/-- C1: planning a stroke emits MoveTo at z_up to the first transformed
point, MoveTo at z_down to the same point, MoveTo at z_down to every
remaining transformed point in order, and a final MoveTo at z_up at the last
transformed point; the 3-point example gives exactly those 5 commands, a
single point gives the up-down-up tap, and the empty stroke gives nothing. -/
theorem C1_planStroke (cfg : TransformConfig) (z_up z_down t_angle speed : ℚ) :
    planStroke cfg z_up z_down t_angle speed [] = [] ∧
    (∀ p ps,
      planStroke cfg z_up z_down t_angle speed (p :: ps) =
        Cmd.moveTo (canvas_to_robot_coordinates cfg p).1
          (canvas_to_robot_coordinates cfg p).2 z_up t_angle speed ::
        Cmd.moveTo (canvas_to_robot_coordinates cfg p).1
          (canvas_to_robot_coordinates cfg p).2 z_down t_angle speed ::
        (ps.map fun q => Cmd.moveTo (canvas_to_robot_coordinates cfg q).1
          (canvas_to_robot_coordinates cfg q).2 z_down t_angle speed) ++
        [Cmd.moveTo (canvas_to_robot_coordinates cfg (ps.getLastD p)).1
          (canvas_to_robot_coordinates cfg (ps.getLastD p)).2 z_up t_angle speed]) ∧
    planStroke ⟨1, 1, 0, 0⟩ 80 50 t_angle speed [(0, 0), (10, 10), (20, 0)] =
      [Cmd.moveTo 0 0 80 t_angle speed,
       Cmd.moveTo 0 0 50 t_angle speed,
       Cmd.moveTo 10 10 50 t_angle speed,
       Cmd.moveTo 20 0 50 t_angle speed,
       Cmd.moveTo 20 0 80 t_angle speed] ∧
    planStroke ⟨1, 1, 0, 0⟩ 80 50 t_angle speed [(5, 7)] =
      [Cmd.moveTo 5 7 80 t_angle speed,
       Cmd.moveTo 5 7 50 t_angle speed,
       Cmd.moveTo 5 7 80 t_angle speed] := by
  refine ⟨rfl, ?_, ?_, ?_⟩
  · intro p ps
    unfold planStroke
    rw [scale_and_offset_points_eq_map]
    simp only [List.map_cons, send_drawing_instructions_stroke]
    rw [getLastD_map, List.map_map]
    rfl
  · norm_num [planStroke, scale_and_offset_points, send_drawing_instructions_stroke]
  · norm_num [planStroke, scale_and_offset_points, send_drawing_instructions_stroke]

/-- C3: picking up at one rectangle computes the canvas center
(left + width/2, top + height/2), transforms it with the same scale/origin
transform as strokes, and emits exactly the four commands up, down,
gripper-close, up; this also holds for degenerate zero-area rectangles, and
the concrete example with unit scale and zero origin gives the four commands
at (125, 125). -/
theorem C3_planPickup (cfg : TransformConfig) (z_up z_pickup t_angle speed : ℚ) :
    (∀ rect : Rectangle,
      pick_up_at_rectangle_centers cfg z_up z_pickup t_angle speed [rect] =
        [Cmd.moveTo (canvas_to_robot_coordinates cfg
            (rect.left + rect.width / 2, rect.top + rect.height / 2)).1
          (canvas_to_robot_coordinates cfg
            (rect.left + rect.width / 2, rect.top + rect.height / 2)).2
          z_up t_angle speed,
         Cmd.moveTo (canvas_to_robot_coordinates cfg
            (rect.left + rect.width / 2, rect.top + rect.height / 2)).1
          (canvas_to_robot_coordinates cfg
            (rect.left + rect.width / 2, rect.top + rect.height / 2)).2
          z_pickup t_angle speed,
         Cmd.gripperSet GRIPPER_CLOSE_ANGLE GRIPPER_SPEED GRIPPER_ACCELERATION,
         Cmd.moveTo (canvas_to_robot_coordinates cfg
            (rect.left + rect.width / 2, rect.top + rect.height / 2)).1
          (canvas_to_robot_coordinates cfg
            (rect.left + rect.width / 2, rect.top + rect.height / 2)).2
          z_up t_angle speed]) ∧
    (∀ pts, scale_and_offset_points cfg pts =
      pts.map (canvas_to_robot_coordinates cfg)) ∧
    (∀ l0 t0 : ℚ,
      (pick_up_at_rectangle_centers cfg z_up z_pickup t_angle speed
        [⟨l0, t0, 0, 0⟩]).length = 4) ∧
    pick_up_at_rectangle_centers ⟨1, 1, 0, 0⟩ z_up z_pickup t_angle speed
        [⟨100, 100, 50, 50⟩] =
      [Cmd.moveTo 125 125 z_up t_angle speed,
       Cmd.moveTo 125 125 z_pickup t_angle speed,
       Cmd.gripperSet (6 / 5) (1 / 2) 10,
       Cmd.moveTo 125 125 z_up t_angle speed] := by
  refine ⟨?_, fun pts => scale_and_offset_points_eq_map cfg pts, ?_, ?_⟩
  · intro rect
    simp [pick_up_at_rectangle_centers, pick_up_at_rectangle_center,
      canvas_to_robot_coordinates]
  · intro l0 t0
    simp [pick_up_at_rectangle_centers, pick_up_at_rectangle_center]
  · norm_num [pick_up_at_rectangle_centers, pick_up_at_rectangle_center,
      GRIPPER_CLOSE_ANGLE, GRIPPER_SPEED, GRIPPER_ACCELERATION]

/-- C4 as stated is false: with an open capture for camera 3, a first call
whose read succeeds with frame 7 returns it, but a subsequent call whose
read fails returns None, not the previously captured frame 7. -/
theorem C4_counterexample :
    get_frame (fun _ => some ⟨true⟩) (some 7) 3 = some 7 ∧
    get_frame (fun _ => some ⟨true⟩) none 3 = none ∧
    (none : Option ℕ) ≠ some 7 := by
  refine ⟨rfl, rfl, by simp⟩

/-- C4 amended: get_frame is stateless; a failed read returns None
regardless of any earlier successful capture, the result is never anything
but the current read, and an absent capture yields None. -/
theorem C4_amended (caps : ℕ → Option Capture) (i : ℕ) (r : Option ℕ) :
    get_frame caps none i = none ∧
    (get_frame caps r i = none ∨ get_frame caps r i = r) ∧
    get_frame (fun _ => none) r i = none := by
  unfold get_frame
  refine ⟨?_, ?_, rfl⟩
  · cases caps i with
    | none => rfl
    | some cap => cases cap.isOpened <;> simp
  · cases caps i with
    | none => exact Or.inl rfl
    | some cap =>
        cases h : cap.isOpened
        · exact Or.inl (by simp [h])
        · exact Or.inr (by simp [h])

/-- Invariant of the parse fold: no empty stroke is ever appended. -/
theorem parse_canvas_foldl_nonempty (objs : List CanvasObject) :
    ∀ acc : List Stroke × List Rectangle, (∀ s ∈ acc.1, s ≠ []) →
      ∀ s ∈ (objs.foldl parse_canvas_step acc).1, s ≠ [] := by
  induction objs with
  | nil => intro acc hacc; exact hacc
  | cons o objs ih =>
      intro acc hacc
      rw [List.foldl_cons]
      refine ih _ ?_
      intro s hs
      match o with
      | CanvasObject.path segs =>
          simp only [parse_canvas_step] at hs
          by_cases h : (segs.filterMap segment_point).isEmpty
          · rw [if_pos h] at hs
            exact hacc s hs
          · rw [if_neg h] at hs
            rcases List.mem_append.mp hs with h1 | h2
            · exact hacc s h1
            · rw [List.mem_singleton] at h2
              subst h2
              intro hc
              rw [hc] at h
              exact h rfl
      | CanvasObject.rect l t w hh => exact hacc s hs
      | CanvasObject.other => exact hacc s hs

/-- C10: None and missing-objects inputs parse to a pair of empty lists, and
every stroke produced by the parser is non-empty (a path with no qualifying
M/L segment contributes no stroke at all). -/
theorem C10_parse :
    parse_canvas_strokes_and_rectangles CanvasInput.null = ([], []) ∧
    parse_canvas_strokes_and_rectangles CanvasInput.noObjects = ([], []) ∧
    ∀ objs, ∀ s ∈ (parse_canvas_strokes_and_rectangles
      (CanvasInput.withObjects objs)).1, s ≠ [] := by
  refine ⟨rfl, rfl, ?_⟩
  intro objs s hs
  exact parse_canvas_foldl_nonempty objs ([], []) (by intro s hs; cases hs) s hs

/-- Witness for C10 on a one-path input whose stroke is (1, 2). -/
theorem C10_witness :
    [((1 : ℚ), (2 : ℚ))] ∈ (parse_canvas_strokes_and_rectangles
      (CanvasInput.withObjects [CanvasObject.path [⟨"M", [1, 2]⟩]])).1 ∧
    ([((1 : ℚ), (2 : ℚ))] : Stroke) ≠ [] := by
  have hmem : [((1 : ℚ), (2 : ℚ))] ∈ (parse_canvas_strokes_and_rectangles
      (CanvasInput.withObjects [CanvasObject.path [⟨"M", [1, 2]⟩]])).1 := by
    simp [parse_canvas_strokes_and_rectangles, parse_canvas_step, segment_point]
  exact ⟨hmem, C10_parse.2.2 [CanvasObject.path [⟨"M", [1, 2]⟩]] _ hmem⟩

/-- A zero keypoint. -/
def kp0 : Keypoint := ⟨0, 0, 0⟩

/-- Example person with a full 17-keypoint set whose left wrist (index 9)
has confidence exactly 1/2 and whose right wrist has confidence 0. -/
def exPerson : List Keypoint :=
  [kp0, kp0, kp0, kp0, kp0, kp0, kp0, kp0, kp0, ⟨5, 6, 1 / 2⟩,
   kp0, kp0, kp0, kp0, kp0, kp0, kp0]

/-- C5 as stated is false: at threshold 1/2 a left wrist whose confidence
exactly equals the threshold yields no detection, because the code tests
strictly greater than. -/
theorem C5_counterexample :
    exPerson.length = 17 ∧
    (exPerson.getD LEFT_WRIST kp0).conf = 1 / 2 ∧
    detect_hands (1 / 2) [exPerson] = [] := by
  refine ⟨rfl, rfl, ?_⟩
  norm_num [detect_hands, detect_hands_person, exPerson, kp0,
    LEFT_WRIST, RIGHT_WRIST]

/-- C5 amended: for a person with a full keypoint set, a wrist detection for
a side is produced if and only if that wrist keypoint's confidence is
STRICTLY greater than the threshold (equality is excluded); each side is
filtered independently and at most 2 detections per person result. -/
theorem C5_amended (score_thr : ℚ) (kpts : List Keypoint)
    (h : 17 ≤ kpts.length) :
    (detect_hands_person score_thr kpts).length ≤ 2 ∧
    ((∃ d ∈ detect_hands_person score_thr kpts, d.side = Side.left) ↔
      (kpts.getD LEFT_WRIST kp0).conf > score_thr) ∧
    ((∃ d ∈ detect_hands_person score_thr kpts, d.side = Side.right) ↔
      (kpts.getD RIGHT_WRIST kp0).conf > score_thr) ∧
    detect_hands score_thr [kpts] = detect_hands_person score_thr kpts := by
  have hlen : ¬ kpts.length < 17 := by omega
  have hdef : detect_hands_person score_thr kpts =
      (if (kpts.getD LEFT_WRIST kp0).conf > score_thr then
        [⟨pyInt (kpts.getD LEFT_WRIST kp0).x, pyInt (kpts.getD LEFT_WRIST kp0).y,
          Side.left, (kpts.getD LEFT_WRIST kp0).conf⟩] else []) ++
      (if (kpts.getD RIGHT_WRIST kp0).conf > score_thr then
        [⟨pyInt (kpts.getD RIGHT_WRIST kp0).x, pyInt (kpts.getD RIGHT_WRIST kp0).y,
          Side.right, (kpts.getD RIGHT_WRIST kp0).conf⟩] else []) := by
    unfold detect_hands_person
    rw [if_neg hlen]
    rfl
  rw [hdef]
  refine ⟨?_, ?_, ?_, by
    rw [show detect_hands score_thr [kpts] =
        detect_hands_person score_thr kpts ++ [] from rfl,
      List.append_nil, hdef]⟩
  · by_cases hl : (kpts.getD LEFT_WRIST kp0).conf > score_thr <;>
      by_cases hr : (kpts.getD RIGHT_WRIST kp0).conf > score_thr
    · rw [if_pos hl, if_pos hr]
      simp
    · rw [if_pos hl, if_neg hr]
      simp
    · rw [if_neg hl, if_pos hr]
      simp
    · rw [if_neg hl, if_neg hr]
      simp
  · by_cases hl : (kpts.getD LEFT_WRIST kp0).conf > score_thr <;>
      by_cases hr : (kpts.getD RIGHT_WRIST kp0).conf > score_thr
    · rw [if_pos hl, if_pos hr]
      simpa using hl
    · rw [if_pos hl, if_neg hr]
      simpa using hl
    · rw [if_neg hl, if_pos hr]
      simpa using hl
    · rw [if_neg hl, if_neg hr]
      simpa using hl
  · by_cases hl : (kpts.getD LEFT_WRIST kp0).conf > score_thr <;>
      by_cases hr : (kpts.getD RIGHT_WRIST kp0).conf > score_thr
    · rw [if_pos hl, if_pos hr]
      simpa using hr
    · rw [if_pos hl, if_neg hr]
      simpa using hr
    · rw [if_neg hl, if_pos hr]
      simpa using hr
    · rw [if_neg hl, if_neg hr]
      simpa using hr

/-- Witness for C5_amended at threshold 1/4 on exPerson, whose left wrist
confidence 1/2 is strictly above the threshold. -/
theorem C5_witness :
    17 ≤ exPerson.length ∧
    ((detect_hands_person (1 / 4) exPerson).length ≤ 2 ∧
     ((∃ d ∈ detect_hands_person (1 / 4) exPerson, d.side = Side.left) ↔
       (exPerson.getD LEFT_WRIST kp0).conf > 1 / 4) ∧
     ((∃ d ∈ detect_hands_person (1 / 4) exPerson, d.side = Side.right) ↔
       (exPerson.getD RIGHT_WRIST kp0).conf > 1 / 4) ∧
     detect_hands (1 / 4) [exPerson] = detect_hands_person (1 / 4) exPerson) :=
  ⟨by norm_num [exPerson], C5_amended (1 / 4) exPerson (by norm_num [exPerson])⟩

/-- C6 as stated is false on the tie |dx| = |dy|: the displacement
(10, 10) has distance above 10 and |dx| ≥ |dy|, yet the code classifies it
as down (the strict axis test |dx| > |dy| fails), not left or right. -/
theorem C6_counterexample :
    ((10 : ℤ) ^ 2 + (10 : ℤ) ^ 2 > 100) ∧
    |(10 : ℤ)| ≥ |(10 : ℤ)| ∧ (0 : ℤ) < 10 ∧
    classify_direction 10 10 = Direction.down ∧
    Direction.down ≠ Direction.right ∧ Direction.down ≠ Direction.left := by
  refine ⟨by norm_num, le_refl _, by norm_num, ?_, by simp, by simp⟩
  norm_num [classify_direction]

/-- C6 amended: distance at most 10 pixels classifies as stationary; above
10 the direction is left/right by the sign of dx only when |dx| is STRICTLY
greater than |dy|, and up/down by the sign of dy otherwise — the tie
|dx| = |dy| classifies as up/down. -/
theorem C6_amended (dx dy : ℤ) (h : dx ^ 2 + dy ^ 2 > 100) :
    classify_direction dx dy =
      (if |dx| > |dy| then
        (if dx > 0 then Direction.right else Direction.left)
       else (if dy > 0 then Direction.down else Direction.up)) ∧
    (∀ a b : ℤ, a ^ 2 + b ^ 2 ≤ 100 →
      classify_direction a b = Direction.stationary) := by
  constructor
  · unfold classify_direction
    rw [if_pos h]
  · intro a b hab
    unfold classify_direction
    rw [if_neg (not_lt.mpr hab)]

/-- Witness for C6_amended at (dx, dy) = (3, -15), which classifies as up. -/
theorem C6_witness :
    ((3 : ℤ) ^ 2 + (-15 : ℤ) ^ 2 > 100) ∧
    (classify_direction 3 (-15) =
      (if |(3 : ℤ)| > |(-15 : ℤ)| then
        (if (3 : ℤ) > 0 then Direction.right else Direction.left)
       else (if (-15 : ℤ) > 0 then Direction.down else Direction.up)) ∧
     (∀ a b : ℤ, a ^ 2 + b ^ 2 ≤ 100 →
       classify_direction a b = Direction.stationary)) :=
  ⟨by norm_num, C6_amended 3 (-15) (by norm_num)⟩

/-- C7 as stated is false: a right-side movement with displacement (15, 0)
has distance 15, strictly above the 10-pixel non-stationary threshold and
direction right, yet the code issues no JointSet because its gate requires
distance strictly above 20. -/
theorem C7_counterexample :
    movement_direction ⟨Side.right, 15, 0⟩ = Direction.right ∧
    ((15 : ℤ) ^ 2 + (0 : ℤ) ^ 2 > 100) ∧
    control_robot_from_movement [⟨Side.right, 15, 0⟩] = [] := by
    refine ⟨by norm_num [movement_direction, classify_direction], by norm_num, ?_⟩
    norm_num [control_robot_from_movement]

/-- C7 amended: a movement of the lead (right) side qualifies only when its
distance exceeds 20 pixels; each qualifying movement issues exactly one
JointSet under the fixed mapping up→joint2 +45, down→joint2 −45,
left→joint1 +45, right→joint1 −45 at speed 10, while any movement with
distance at most 20 (even a non-stationary one) or of the left side issues
nothing. -/
theorem C7_amended (m : Movement) (h1 : m.side = Side.right)
    (h2 : m.dx ^ 2 + m.dy ^ 2 > 400) :
    control_robot_from_movement [m] =
      joint_cmd_of_direction (movement_direction m) ∧
    movement_direction m ≠ Direction.stationary ∧
    (joint_cmd_of_direction (movement_direction m)).length = 1 ∧
    (∀ m2 : Movement, m2.dx ^ 2 + m2.dy ^ 2 ≤ 400 →
      control_robot_from_movement [m2] = []) ∧
    (∀ m2 : Movement, m2.side = Side.left →
      control_robot_from_movement [m2] = []) := by
  have hdir : movement_direction m ≠ Direction.stationary := by
    unfold movement_direction classify_direction
    rw [if_pos (by omega)]
    by_cases hx : |m.dx| > |m.dy| <;> by_cases hs : m.dx > 0 <;>
      by_cases hs2 : m.dy > 0 <;> simp [hx, hs, hs2]
  refine ⟨?_, hdir, ?_, ?_, ?_⟩
  · simp [control_robot_from_movement, h1, h2]
  · cases hd : movement_direction m <;> simp [joint_cmd_of_direction] at hdir ⊢
    exact hdir hd
  · intro m2 hm2
    simp [control_robot_from_movement, not_lt.mpr hm2]
  · intro m2 hm2
    simp [control_robot_from_movement, hm2]

/-- Witness for C7_amended on the right-side movement (21, 0), distance 21. -/
theorem C7_witness :
    (⟨Side.right, 21, 0⟩ : Movement).side = Side.right ∧
    ((21 : ℤ) ^ 2 + (0 : ℤ) ^ 2 > 400) ∧
    (control_robot_from_movement [⟨Side.right, 21, 0⟩] =
      joint_cmd_of_direction (movement_direction ⟨Side.right, 21, 0⟩) ∧
     movement_direction ⟨Side.right, 21, 0⟩ ≠ Direction.stationary ∧
     (joint_cmd_of_direction (movement_direction ⟨Side.right, 21, 0⟩)).length = 1 ∧
     (∀ m2 : Movement, m2.dx ^ 2 + m2.dy ^ 2 ≤ 400 →
       control_robot_from_movement [m2] = []) ∧
     (∀ m2 : Movement, m2.side = Side.left →
       control_robot_from_movement [m2] = [])) :=
  ⟨rfl, by norm_num, C7_amended ⟨Side.right, 21, 0⟩ rfl (by norm_num)⟩

/-- C9 as stated is false: with one hand reported at x = 1280 (outside the
assumed 640-pixel frame), fresh smoothing state and alpha = 1, centering
emits a JointSet whose angle is 135 degrees, beyond the claimed ±45 clamp —
the proportional adjustment is not clamped. -/
theorem C9_counterexample :
    (center_robot_on_hands true [(1280, 240)] none 1).2 =
      [Cmd.jointSet 1 135 20 10,
       Cmd.moveTo 700 (425 / 2) 80 (157 / 100) 1] ∧
    ¬ |(135 : ℚ)| ≤ 45 := by
  constructor
  · norm_num [center_robot_on_hands, centroid_x, centroid_y, raw_robot_x,
      raw_robot_y, base_angle_adjustment, CAMERA_WIDTH, CAMERA_HEIGHT,
      ROBOT_WORKSPACE_WIDTH, ROBOT_WORKSPACE_HEIGHT, DRAW_ORIGIN_X,
      DRAW_ORIGIN_Y, Z_UP, T_ANGLE]
  · rw [abs_of_nonneg (by norm_num)]
    norm_num

/-- C9 amended: the base angle adjustment equals (center_x − 320) / 320 · 45,
proportional to the horizontal offset from frame center; it is NOT clamped,
but its absolute value is at most 45 whenever the centroid lies within the
assumed frame width [0, 640], and one smoothing step from a previous angle
within ±45 toward such a raw angle stays within ±45. -/
theorem C9_amended (center_x alpha prev : ℚ) (hc0 : 0 ≤ center_x)
    (hc1 : center_x ≤ 640) (ha0 : 0 < alpha) (ha1 : alpha ≤ 1)
    (hp : |prev| ≤ 45) :
    base_angle_adjustment center_x = (center_x - 320) / 320 * 45 ∧
    |base_angle_adjustment center_x| ≤ 45 ∧
    |smooth_step prev (base_angle_adjustment center_x) alpha| ≤ 45 := by
  have hval : base_angle_adjustment center_x = (center_x - 320) / 320 * 45 := by
    unfold base_angle_adjustment CAMERA_WIDTH
    norm_num
  have hbound : |base_angle_adjustment center_x| ≤ 45 := by
    rw [hval, abs_le]
    constructor <;> nlinarith
  refine ⟨hval, hbound, ?_⟩
  rw [abs_le] at hp hbound ⊢
  unfold smooth_step
  constructor <;> nlinarith [hp.1, hp.2, hbound.1, hbound.2]

/-- Witness for C9_amended at center_x = 480, alpha = 1/2, prev = 10. -/
theorem C9_witness :
    (0 : ℚ) ≤ 480 ∧ (480 : ℚ) ≤ 640 ∧ (0 : ℚ) < 1 / 2 ∧ (1 : ℚ) / 2 ≤ 1 ∧
    |(10 : ℚ)| ≤ 45 ∧
    (base_angle_adjustment 480 = (480 - 320) / 320 * 45 ∧
     |base_angle_adjustment 480| ≤ 45 ∧
     |smooth_step 10 (base_angle_adjustment 480) (1 / 2)| ≤ 45) :=
  ⟨by norm_num, by norm_num, by norm_num, by norm_num,
   by rw [abs_of_nonneg (by norm_num)]; norm_num,
   C9_amended 480 (1 / 2) 10 (by norm_num) (by norm_num) (by norm_num)
     (by norm_num) (by rw [abs_of_nonneg (by norm_num)]; norm_num)⟩

/-- One smoothing step multiplies the distance to the raw target
by (1 - alpha). -/
theorem smooth_step_err (prev raw alpha : ℚ) :
    raw - smooth_step prev raw alpha = (raw - prev) * (1 - alpha) := by
  unfold smooth_step
  ring

/-- Closed form of the error after n smoothing steps at a constant target. -/
theorem smooth_iter_err (raw alpha x0 : ℚ) (n : ℕ) :
    raw - smooth_iter raw alpha x0 n = (raw - x0) * (1 - alpha) ^ n := by
  induction n with
  | zero => simp [smooth_iter]
  | succ n ih =>
      simp only [smooth_iter]
      rw [smooth_step_err, ih]
      ring

/-- C8: the centering smoothing satisfies the recurrence
value = prev + (raw − prev) · alpha on every channel, is seeded with the raw
values when no previous state exists, and for alpha in (0, 1] against a
constant raw target the iterates approach the target monotonically, never
overshooting it, with error below any positive bound eventually. -/
theorem C8_smoothing (raw alpha x0 : ℚ) (h1 : 0 < alpha) (h2 : alpha ≤ 1) :
    (∀ prev, smooth_step prev raw alpha = prev + (raw - prev) * alpha) ∧
    (∀ positions : List (ℤ × ℤ), positions ≠ [] →
      (center_robot_on_hands true positions none alpha).1 =
        some ⟨raw_robot_x (centroid_x positions),
          raw_robot_y (centroid_y positions),
          base_angle_adjustment (centroid_x positions)⟩) ∧
    (∀ positions : List (ℤ × ℤ), ∀ prev : SmoothState, positions ≠ [] →
      (center_robot_on_hands true positions (some prev) alpha).1 =
        some ⟨smooth_step prev.x (raw_robot_x (centroid_x positions)) alpha,
          smooth_step prev.y (raw_robot_y (centroid_y positions)) alpha,
          smooth_step prev.angle (base_angle_adjustment (centroid_x positions))
            alpha⟩) ∧
    (∀ n, |raw - smooth_iter raw alpha x0 (n + 1)| ≤
      |raw - smooth_iter raw alpha x0 n|) ∧
    (x0 ≤ raw → ∀ n,
      smooth_iter raw alpha x0 n ≤ smooth_iter raw alpha x0 (n + 1) ∧
      smooth_iter raw alpha x0 n ≤ raw) ∧
    (raw ≤ x0 → ∀ n,
      smooth_iter raw alpha x0 (n + 1) ≤ smooth_iter raw alpha x0 n ∧
      raw ≤ smooth_iter raw alpha x0 n) ∧
    (∀ ε : ℚ, 0 < ε → ∃ N, ∀ n, N ≤ n →
      |raw - smooth_iter raw alpha x0 n| < ε) := by
  have h1a : (0 : ℚ) ≤ 1 - alpha := by linarith
  have h2a : 1 - alpha ≤ 1 := by linarith
  refine ⟨fun prev => rfl, ?_, ?_, ?_, ?_, ?_, ?_⟩
  · intro positions hne
    simp [center_robot_on_hands, hne]
  · intro positions prev hne
    simp [center_robot_on_hands, hne]
  · intro n
    rw [smooth_iter_err, smooth_iter_err, pow_succ, ← mul_assoc, abs_mul,
      abs_of_nonneg h1a]
    have hnn : (0 : ℚ) ≤ |(raw - x0) * (1 - alpha) ^ n| := abs_nonneg _
    nlinarith
  · intro hx n
    have herr : raw - smooth_iter raw alpha x0 n =
        (raw - x0) * (1 - alpha) ^ n := smooth_iter_err raw alpha x0 n
    have hge : 0 ≤ raw - smooth_iter raw alpha x0 n := by
      rw [herr]
      exact mul_nonneg (by linarith) (pow_nonneg h1a n)
    constructor
    · have hstep : smooth_iter raw alpha x0 (n + 1) =
          smooth_iter raw alpha x0 n +
            (raw - smooth_iter raw alpha x0 n) * alpha := rfl
      nlinarith
    · linarith
  · intro hx n
    have herr : raw - smooth_iter raw alpha x0 n =
        (raw - x0) * (1 - alpha) ^ n := smooth_iter_err raw alpha x0 n
    have hle : raw - smooth_iter raw alpha x0 n ≤ 0 := by
      rw [herr]
      exact mul_nonpos_of_nonpos_of_nonneg (by linarith) (pow_nonneg h1a n)
    constructor
    · have hstep : smooth_iter raw alpha x0 (n + 1) =
          smooth_iter raw alpha x0 n +
            (raw - smooth_iter raw alpha x0 n) * alpha := rfl
      nlinarith
    · linarith
  · intro ε hε
    by_cases hc : raw - x0 = 0
    · refine ⟨0, fun n _ => ?_⟩
      rw [smooth_iter_err, hc, zero_mul, abs_zero]
      exact hε
    · have habs : 0 < |raw - x0| := abs_pos.mpr hc
      obtain ⟨N, hN⟩ :=
        exists_pow_lt_of_lt_one (div_pos hε habs) (show 1 - alpha < 1 by linarith)
      refine ⟨N, fun n hn => ?_⟩
      rw [smooth_iter_err, abs_mul, abs_pow, abs_of_nonneg h1a]
      have hpow : (1 - alpha) ^ n ≤ (1 - alpha) ^ N :=
        pow_le_pow_of_le_one h1a h2a hn
      have hlt : |raw - x0| * (1 - alpha) ^ N < ε := by
        have hmul := (lt_div_iff₀ habs).mp hN
        nlinarith
      calc |raw - x0| * (1 - alpha) ^ n
          ≤ |raw - x0| * (1 - alpha) ^ N :=
            mul_le_mul_of_nonneg_left hpow (le_of_lt habs)
        _ < ε := hlt

/-- Witness for C8_smoothing at raw = 10, alpha = 1/2, x0 = 0. -/
theorem C8_witness :
    (0 : ℚ) < 1 / 2 ∧ (1 : ℚ) / 2 ≤ 1 ∧
    ((∀ prev, smooth_step prev 10 (1 / 2) = prev + (10 - prev) * (1 / 2)) ∧
     (∀ positions : List (ℤ × ℤ), positions ≠ [] →
       (center_robot_on_hands true positions none (1 / 2)).1 =
         some ⟨raw_robot_x (centroid_x positions),
           raw_robot_y (centroid_y positions),
           base_angle_adjustment (centroid_x positions)⟩) ∧
     (∀ positions : List (ℤ × ℤ), ∀ prev : SmoothState, positions ≠ [] →
       (center_robot_on_hands true positions (some prev) (1 / 2)).1 =
         some ⟨smooth_step prev.x (raw_robot_x (centroid_x positions)) (1 / 2),
           smooth_step prev.y (raw_robot_y (centroid_y positions)) (1 / 2),
           smooth_step prev.angle
             (base_angle_adjustment (centroid_x positions)) (1 / 2)⟩) ∧
     (∀ n, |10 - smooth_iter 10 (1 / 2) 0 (n + 1)| ≤
       |10 - smooth_iter 10 (1 / 2) 0 n|) ∧
     ((0 : ℚ) ≤ 10 → ∀ n,
       smooth_iter 10 (1 / 2) 0 n ≤ smooth_iter 10 (1 / 2) 0 (n + 1) ∧
       smooth_iter 10 (1 / 2) 0 n ≤ 10) ∧
     ((10 : ℚ) ≤ 0 → ∀ n,
       smooth_iter 10 (1 / 2) 0 (n + 1) ≤ smooth_iter 10 (1 / 2) 0 n ∧
       10 ≤ smooth_iter 10 (1 / 2) 0 n) ∧
     (∀ ε : ℚ, 0 < ε → ∃ N, ∀ n, N ≤ n →
       |10 - smooth_iter 10 (1 / 2) 0 n| < ε)) :=
  ⟨by norm_num, by norm_num, C8_smoothing 10 (1 / 2) 0 (by norm_num) (by norm_num)⟩

end Wavey
